import Mathlib

/-!
Shallow embedding of `src/ff/serving/client/resources.py`: the resource
declaration layer of the featureform serving client and its `ResourceState`
registry.  Python values become Lean structures, methods become functions,
attribute lookups that can raise `AttributeError` become `Option`-valued
functions, and raised exceptions become explicit error values.  Byte strings
are modelled by their UTF-8 string content.
-/

namespace FF

/-- Source: `NameVariant = Tuple[str, str]`. -/
abbrev NameVariant := String × String

/-- Source: `valid_name_variant(nvar)` is true when both components of the
pair are non-empty strings. -/
def valid_name_variant (nvar : NameVariant) : Bool :=
  nvar.1 != "" && nvar.2 != ""

/-- Source: `RedisConfig` dataclass. -/
structure RedisConfig where
  host : String
  port : Int
  password : String
  db : Int
deriving DecidableEq

/-- Source: `SnowflakeConfig` dataclass. -/
structure SnowflakeConfig where
  account : String
  database : String
  organization : String
  username : String
  password : String
  schema : String
deriving DecidableEq

/-- Source: `PostgresConfig` dataclass. -/
structure PostgresConfig where
  host : String
  port : Int
  database : String
  user : String
  password : String
deriving DecidableEq

/-- One character as encoded by `json.dumps` under its defaults
(`ensure_ascii=True`): `"` and `\` get a backslash escape, the common control
characters get short escapes, any other control character and every
non-ASCII character become `\uXXXX` escapes (as a surrogate pair above the
basic multilingual plane).  Hex digits are lowercase. -/
def hexDigit (n : Nat) : Char :=
  if n < 10 then Char.ofNat (48 + n) else Char.ofNat (87 + n)

/-- Four lowercase hex digits of `n % 65536`. -/
def hex4 (n : Nat) : String :=
  String.mk [hexDigit (n / 4096 % 16), hexDigit (n / 256 % 16),
    hexDigit (n / 16 % 16), hexDigit (n % 16)]

/-- A `\uXXXX` escape. -/
def uEscape (n : Nat) : String := "\\u" ++ hex4 n

/-- The `json.dumps` encoding of one character (see `hexDigit`). -/
def jsonEscapeChar (c : Char) : String :=
  if c = Char.ofNat 34 then "\\\""
  else if c = Char.ofNat 92 then "\\\\"
  else if c = Char.ofNat 10 then "\\n"
  else if c = Char.ofNat 13 then "\\r"
  else if c = Char.ofNat 9 then "\\t"
  else if c = Char.ofNat 8 then "\\b"
  else if c = Char.ofNat 12 then "\\f"
  else if c.toNat < 32 ∨ c.toNat ≥ 127 then
    if c.toNat < 65536 then uEscape c.toNat
    else uEscape (55296 + (c.toNat - 65536) / 1024) ++
      uEscape (56320 + (c.toNat - 65536) % 1024)
  else String.singleton c

/-- The `json.dumps` encoding of a string: quotes around the escaped
characters. -/
def jsonString (s : String) : String :=
  "\"" ++ String.join (s.data.map jsonEscapeChar) ++ "\""

/-- One `"key": "value"` member of a JSON object, with the default
separator. -/
def jsonField (kv : String × String) : String :=
  jsonString kv.1 ++ ": " ++ jsonString kv.2

/-- The members of a JSON object joined by the default item separator. -/
def jsonFields : List (String × String) → String
  | [] => ""
  | [kv] => jsonField kv
  | kv :: rest => jsonField kv ++ ", " ++ jsonFields rest

/-- Source semantics of `json.dumps(config)` for a dict of strings: the
members in insertion order between braces. -/
def jsonObject (fields : List (String × String)) : String :=
  "\x7b" ++ jsonFields fields ++ "\x7d"

/-- Source: `SnowflakeConfig.serialize()` dumps the five connection
parameters, in the dict insertion order of the source, as JSON bytes. -/
def SnowflakeConfig.serialize (c : SnowflakeConfig) : String :=
  jsonObject [("Username", c.username), ("Password", c.password),
    ("Organization", c.organization), ("Account", c.account),
    ("Database", c.database)]

/-- Source: `Config = Union[RedisConfig, SnowflakeConfig, PostgresConfig]`. -/
inductive Config where
  | redis (c : RedisConfig)
  | snowflake (c : SnowflakeConfig)
  | postgres (c : PostgresConfig)
deriving DecidableEq

/-- Source: the `software()` method, defined on all three config classes. -/
def Config.software : Config → String
  | .redis _ => "redis"
  | .snowflake _ => "Snowflake"
  | .postgres _ => "postgres"

/-- Source: the `type()` method of a config.  Only `SnowflakeConfig` defines
it; on `RedisConfig` and `PostgresConfig` the attribute lookup raises
`AttributeError`, modelled as `none`. -/
def Config.type : Config → Option String
  | .snowflake _ => some "SNOWFLAKE_OFFLINE"
  | _ => none

/-- Source: the `serialize()` method of a config.  Only `SnowflakeConfig`
defines it; `none` models the `AttributeError` on the other two classes. -/
def Config.serialize : Config → Option String
  | .snowflake c => some c.serialize
  | _ => none

/-- Wire message `pb.User` with the field the client sets. -/
structure UserMessage where
  name : String
deriving DecidableEq

/-- Wire message `pb.Provider` with the fields the client sets. -/
structure ProviderMessage where
  name : String
  description : String
  type : String
  software : String
  team : String
  serialized_config : String
deriving DecidableEq

/-- Wire sub-message `pb.PrimarySQLTable`. -/
structure PrimarySQLTableMessage where
  name : String
deriving DecidableEq

/-- Wire sub-message `pb.PrimaryData`. -/
structure PrimaryDataMessage where
  table : PrimarySQLTableMessage
deriving DecidableEq

/-- Wire sub-message `pb.SQLTransformation`. -/
structure SQLTransformationMessage where
  query : String
deriving DecidableEq

/-- Wire sub-message `pb.Transformation`. -/
structure TransformationMessage where
  sqlTransformation : SQLTransformationMessage
deriving DecidableEq

/-- The keyword arguments produced by `definition.kwargs()`: exactly one of
the `primaryData` / `transformation` fields of `pb.SourceVariant` is
populated. -/
inductive SourceDefArgs where
  | primaryDataArg (msg : PrimaryDataMessage)
  | transformationArg (msg : TransformationMessage)
deriving DecidableEq

/-- Wire message `pb.SourceVariant` with the fields the client sets. -/
structure SourceVariantMessage where
  name : String
  variant : String
  owner : String
  description : String
  provider : String
  definitionArgs : SourceDefArgs
deriving DecidableEq

/-- One remote create call issued on the grpc stub: the method invoked and
the wire message passed to it. -/
inductive Call where
  | CreateUser (msg : UserMessage)
  | CreateProvider (msg : ProviderMessage)
  | CreateSourceVariant (msg : SourceVariantMessage)
deriving DecidableEq

/-- Source: `Provider` dataclass. -/
structure Provider where
  name : String
  function : String
  config : Config
  description : String
  team : String
deriving DecidableEq

/-- Source: `User` dataclass. -/
structure User where
  name : String
deriving DecidableEq

/-- Source: `SQLTable` dataclass; `Location = SQLTable`. -/
structure SQLTable where
  name : String
deriving DecidableEq

abbrev Location := SQLTable

/-- Source: `PrimaryData` dataclass. -/
structure PrimaryData where
  location : Location
deriving DecidableEq

/-- Source: `SourceDefinition = Union[PrimaryData, Transformation]`.  The only
concrete transformation the module defines is `SQLTransformation(query)`;
the bare `Transformation` base class carries no data and is never
instantiated by the client. -/
inductive SourceDefinition where
  | primaryData (d : PrimaryData)
  | sqlTransformation (query : String)
deriving DecidableEq

/-- Source: `definition.kwargs()` for both definition variants. -/
def SourceDefinition.kwargs : SourceDefinition → SourceDefArgs
  | .primaryData d => .primaryDataArg ⟨⟨d.location.name⟩⟩
  | .sqlTransformation q => .transformationArg ⟨⟨q⟩⟩

/-- Source: `Source` dataclass. -/
structure Source where
  name : String
  variant : String
  definition : SourceDefinition
  owner : String
  provider : String
  description : String
deriving DecidableEq

/-- Source: `Entity` dataclass. -/
structure Entity where
  name : String
  description : String
deriving DecidableEq

/-- Source: `ResourceColumnMapping`; `ResourceLocation = ResourceColumnMapping`. -/
structure ResourceColumnMapping where
  entity : String
  value : String
  timestamp : String
deriving DecidableEq

abbrev ResourceLocation := ResourceColumnMapping

/-- Source: `Feature` dataclass. -/
structure Feature where
  name : String
  variant : String
  value_type : String
  entity : String
  owner : String
  provider : String
  description : String
  location : ResourceLocation
deriving DecidableEq

/-- Source: `Label` dataclass. -/
structure Label where
  name : String
  variant : String
  value_type : String
  entity : String
  owner : String
  description : String
  location : ResourceLocation
deriving DecidableEq

/-- Source: `TrainingSet` dataclass fields (an already-constructed value,
i.e. one whose `__post_init__` has passed). -/
structure TrainingSet where
  name : String
  variant : String
  owner : String
  label : NameVariant
  features : List NameVariant
  description : String
deriving DecidableEq

/-- Python exceptions raised by this module, carrying what the claims need:
`valueError` from `TrainingSet.__post_init__`, `resourceRedefined` for
`ResourceRedefinedError` with its message, `attributeError` for an attribute
or method that does not exist, and `uncaught` for an exception of a class
other than `grpc._channel._InactiveRpcError` escaping `create_all`. -/
inductive PyError where
  | valueError (msg : String)
  | resourceRedefined (msg : String)
  | attributeError
  | uncaught (name : String)
deriving DecidableEq

/-- Source: `TrainingSet(...)` construction including `__post_init__`: the
label is validated first, then non-emptiness of the feature list, then each
feature in order (the loop raises at the first invalid one, which
`List.find?` reproduces); only then does the value exist. -/
def TrainingSet.make (name variant owner : String) (label : NameVariant)
    (features : List NameVariant) (description : String) :
    Except PyError TrainingSet :=
  if !valid_name_variant label then
    .error (.valueError "Label must be set")
  else if features.length = 0 then
    .error (.valueError "A training-set must have atleast one feature")
  else
    match features.find? (fun f => !valid_name_variant f) with
    | some _ => .error (.valueError "Invalid Feature")
    | none => .ok ⟨name, variant, owner, label, features, description⟩

/-- Source: `Resource = Union[PrimaryData, Provider, Entity, User, Feature,
Label, TrainingSet, Source]`. -/
inductive Resource where
  | primaryData (d : PrimaryData)
  | provider (p : Provider)
  | entity (e : Entity)
  | user (u : User)
  | feature (f : Feature)
  | label (l : Label)
  | trainingSet (t : TrainingSet)
  | source (s : Source)
deriving DecidableEq

/-- Source: `resource.type()`.  Every union member except `PrimaryData`
defines it; `none` models the `AttributeError` on `PrimaryData`. -/
def Resource.type? : Resource → Option String
  | .primaryData _ => none
  | .provider _ => some "provider"
  | .entity _ => some "entity"
  | .user _ => some "user"
  | .feature _ => some "feature"
  | .label _ => some "label"
  | .trainingSet _ => some "training-set"
  | .source _ => some "source"

/-- Source: `resource.name`.  Every union member except `PrimaryData` has the
field. -/
def Resource.name? : Resource → Option String
  | .primaryData _ => none
  | .provider p => some p.name
  | .entity e => some e.name
  | .user u => some u.name
  | .feature f => some f.name
  | .label l => some l.name
  | .trainingSet t => some t.name
  | .source s => some s.name

/-- Source: `resource.variant` guarded by `hasattr(resource, 'variant')`:
present exactly on `Source`, `Feature`, `Label` and `TrainingSet`. -/
def Resource.variant? : Resource → Option String
  | .feature f => some f.variant
  | .label l => some l.variant
  | .trainingSet t => some t.variant
  | .source s => some s.variant
  | _ => none

/-- Source: the f-string `variantStr` computed by `ResourceRedefinedError`:
a `" variant <v>"` suffix exactly when the resource has a `variant`
attribute. -/
def Resource.variantStr (r : Resource) : String :=
  match r.variant? with
  | some v => " variant " ++ v
  | none => ""

/-- Source: the message built by `ResourceRedefinedError.__init__` for a
resource whose `type()` is `t` and whose `name` is `n`. -/
def redefinedMessage (t n : String) (r : Resource) : String :=
  t ++ " resource " ++ n ++ r.variantStr ++ " defined in multiple places"

/-- Spec 4.2: `identity_key(resource) = (resource.kind(), resource.name)`,
the key `ResourceState.add` computes; `none` when either attribute is
missing (`PrimaryData`). -/
def identity_key (r : Resource) : Option (String × String) :=
  match r.type?, r.name? with
  | some t, some n => some (t, n)
  | _, _ => none

/-- Source: the outcome of `resource._create(stub)` up to the point the RPC
is issued.  `none` models an `AttributeError` raised before any call goes
out: `Entity`, `Feature`, `Label`, `TrainingSet` and `PrimaryData` have no
`_create` method at all, and inside `Provider._create` the keyword
arguments call `config.type()` and `config.serialize()`, which only
`SnowflakeConfig` defines.  `some c` is the single call the method issues. -/
def Resource.create? : Resource → Option Call
  | .user u => some (.CreateUser ⟨u.name⟩)
  | .provider p => do
      let t ← p.config.type
      let s ← p.config.serialize
      pure (.CreateProvider ⟨p.name, p.description, t, p.config.software, p.team, s⟩)
  | .source s =>
      some (.CreateSourceVariant
        ⟨s.name, s.variant, s.owner, s.description, s.provider, s.definition.kwargs⟩)
  | _ => none

/-- What one RPC on the stub does.  grpc synchronous stubs report any failed
call — an already-exists conflict included — by raising
`grpc._channel._InactiveRpcError` carrying the status code; an exception of
any other class (`otherError`) is not an `_InactiveRpcError`. -/
inductive RpcOutcome where
  | ok
  | inactiveRpcError (status : String)
  | otherError (name : String)
deriving DecidableEq

/-- A remote stub, as `create_all` sees it: what each issued call does. -/
abbrev Stub := Call → RpcOutcome

/-- Source: `ResourceState.__init__`: `__state` is a `dict` from identity key
to resource — Python dicts preserve insertion order, so it is modelled as an
association list in insertion order — and `__create_list` is the list of
resources in the order they were added. -/
structure ResourceState where
  state : List ((String × String) × Resource)
  create_list : List Resource
deriving DecidableEq

/-- A fresh registry. -/
def ResourceState.empty : ResourceState := ⟨[], []⟩

/-- Source: the `key in self.__state` membership test. -/
def ResourceState.containsKey (s : ResourceState) (k : String × String) : Bool :=
  s.state.any fun kv => kv.1 == k

/-- Source: `ResourceState.add(resource)`.  The raised exception, if any, is
returned next to the state the method leaves behind: computing the key
raises `AttributeError` when the resource lacks `type()` or `name`, and a
present key raises `ResourceRedefinedError`; both happen before any
mutation, so the state returned with an error is the input state.  On
success the resource is recorded in the dict and appended to
`__create_list`. -/
def ResourceState.add (s : ResourceState) (r : Resource) :
    ResourceState × Option PyError :=
  match r.type?, r.name? with
  | some t, some n =>
    if s.containsKey (t, n) then
      (s, some (.resourceRedefined (redefinedMessage t n r)))
    else
      (⟨s.state ++ [((t, n), r)], s.create_list ++ [r]⟩, none)
  | _, _ => (s, some .attributeError)

/-- Source: the `resource_order` dict of `sorted_list`; `none` models the
`KeyError` for a type outside the table. -/
def resource_order (t : String) : Option Nat :=
  if t = "user" then some 0
  else if t = "provider" then some 1
  else if t = "source" then some 2
  else if t = "entity" then some 3
  else if t = "feature" then some 4
  else if t = "label" then some 5
  else if t = "training-set" then some 6
  else none

/-- A Python sort key `(resource_num, res.name, variant)`. -/
abbrev SortKey := Nat × String × String

/-- Source: `to_sort_key(res)`; `none` models the exceptions raised for a
resource without a `type()` method or with a type outside
`resource_order`. -/
def to_sort_key (r : Resource) : Option SortKey := do
  let t ← r.type?
  let k ← resource_order t
  let n ← r.name?
  pure (k, n, r.variant?.getD "")

/-- The sort key with the (unreachable) failure case defaulted, so the
comparison passed to the sorting routine is total. -/
def sortKeyD (r : Resource) : SortKey := (to_sort_key r).getD (0, "", "")

/-- Python tuple comparison `a <= b` on sort keys: lexicographic on the
components, string comparison being code-point lexicographic on both
sides. -/
def sort_key_le (a b : SortKey) : Prop :=
  a.1 < b.1 ∨ (a.1 = b.1 ∧ (a.2.1 < b.2.1 ∨ (a.2.1 = b.2.1 ∧ a.2.2 ≤ b.2.2)))

instance : DecidableRel sort_key_le := fun a b => by
  unfold sort_key_le; infer_instance

/-- The sort relation on resources that `sorted(..., key=to_sort_key)`
orders by: comparison of the Python sort keys. -/
def res_le (a b : Resource) : Prop := sort_key_le (sortKeyD a) (sortKeyD b)

instance : DecidableRel res_le := fun a b => by
  unfold res_le; infer_instance

/-- Source: `ResourceState.sorted_list()`: the dict's values sorted by
`to_sort_key`.  Python's `sorted` is a stable sort by the key tuples, which
`List.insertionSort` with the non-strict key comparison reproduces (both
are stable and agree on every list; on the registries the claims range
over, all keys are distinct, so any sort by `res_le` gives the same list).
`none` models the call raising (impossible for registries reached through
successful `add` calls). -/
def ResourceState.sorted_list (s : ResourceState) : Option (List Resource) :=
  let vals := s.state.map Prod.snd
  if vals.all fun r => (to_sort_key r).isSome then
    some (vals.insertionSort res_le)
  else none

/-- The method-call view of `sorted_list`: a Python method is a transformer
of the receiver's state next to its return value, and the body of
`sorted_list` contains no write to `self`, so the receiver comes back as it
was. -/
def ResourceState.sorted_list_run (s : ResourceState) :
    Option (List Resource) × ResourceState :=
  (s.sorted_list, s)

/-- Source: the loop of `ResourceState.create_all(stub)` over the remaining
`__create_list`: the calls issued on the stub in order, next to the
exception that propagates out of the loop, if any.  An
`_InactiveRpcError` raised by a call is caught (the "already exists"
branch prints and iteration continues); an `AttributeError` raised inside
`_create` before a call is issued, or an exception of any other class
raised by the call, propagates and ends the iteration. -/
def createLoop (stub : Stub) : List Resource → List Call × Option PyError
  | [] => ([], none)
  | r :: rest =>
    match r.create? with
    | none => ([], some .attributeError)
    | some c =>
      match stub c with
      | .otherError e => ([c], some (.uncaught e))
      | _ =>
        let out := createLoop stub rest
        (c :: out.1, out.2)

/-- Source: `ResourceState.create_all(stub)` walks `__create_list`. -/
def ResourceState.create_all (s : ResourceState) (stub : Stub) :
    List Call × Option PyError :=
  createLoop stub s.create_list

/-- A session of `add` calls that are all expected to succeed: `none` as
soon as one raises. -/
def addAll (s : ResourceState) : List Resource → Option ResourceState
  | [] => some s
  | r :: rest =>
    match s.add r with
    | (s2, none) => addAll s2 rest
    | (_, some _) => none

/-- A session of `add` calls where the caller catches every raised exception
and continues: the registry evolves by the state component of each call. -/
def runAdds (rs : List Resource) : ResourceState :=
  rs.foldl (fun s r => (s.add r).1) ResourceState.empty

/-- The identity key with the (for stored resources unreachable) failure
case defaulted. -/
def keyD (r : Resource) : String × String := (identity_key r).getD ("", "")

/-!  ## Helper lemmas  -/

theorem identity_key_eq_some {r : Resource} {t n : String} :
    identity_key r = some (t, n) ↔ r.type? = some t ∧ r.name? = some n := by
  unfold identity_key
  cases ht : r.type? <;> cases hn : r.name? <;> simp

theorem add_success (s : ResourceState) (r : Resource) (t n : String)
    (ht : r.type? = some t) (hn : r.name? = some n)
    (hmem : s.containsKey (t, n) = false) :
    s.add r = (⟨s.state ++ [((t, n), r)], s.create_list ++ [r]⟩, none) := by
  rw [ResourceState.add.eq_def, ht, hn]
  simp [hmem]

theorem containsKey_mk_append (st : List ((String × String) × Resource))
    (cl : List Resource) (k k' : String × String) (r : Resource) :
    (ResourceState.mk (st ++ [(k, r)]) cl).containsKey k' =
      ((ResourceState.mk st cl).containsKey k' || (k == k')) := by
  simp [ResourceState.containsKey, List.any_append]

theorem not_mem_fst_of_not_containsKey (s : ResourceState) (k : String × String)
    (h : s.containsKey k = false) : k ∉ s.state.map Prod.fst := by
  intro hk
  obtain ⟨kv, hkv, hfst⟩ := List.mem_map.mp hk
  have : s.containsKey k = true := by
    simp only [ResourceState.containsKey, List.any_eq_true]
    exact ⟨kv, hkv, by simp [hfst]⟩
  simp [this] at h

theorem to_sort_key_isSome (r : Resource) :
    (to_sort_key r).isSome = (identity_key r).isSome := by
  cases r <;> rfl

theorem sort_key_le_trans {a b c : SortKey}
    (h1 : sort_key_le a b) (h2 : sort_key_le b c) : sort_key_le a c := by
  unfold sort_key_le at h1 h2 ⊢
  rcases h1 with h1 | ⟨e1, h1⟩
  · rcases h2 with h2 | ⟨e2, h2⟩
    · exact Or.inl (lt_trans h1 h2)
    · exact Or.inl (e2 ▸ h1)
  · rcases h2 with h2 | ⟨e2, h2⟩
    · exact Or.inl (e1 ▸ h2)
    · refine Or.inr ⟨e1.trans e2, ?_⟩
      rcases h1 with h1 | ⟨f1, h1⟩
      · rcases h2 with h2 | ⟨f2, h2⟩
        · exact Or.inl (lt_trans h1 h2)
        · exact Or.inl (f2 ▸ h1)
      · rcases h2 with h2 | ⟨f2, h2⟩
        · exact Or.inl (f1 ▸ h2)
        · exact Or.inr ⟨f1.trans f2, le_trans h1 h2⟩

theorem sort_key_le_total (a b : SortKey) : sort_key_le a b ∨ sort_key_le b a := by
  unfold sort_key_le
  rcases lt_trichotomy a.1 b.1 with h | h | h
  · exact Or.inl (Or.inl h)
  · rcases lt_trichotomy a.2.1 b.2.1 with h' | h' | h'
    · exact Or.inl (Or.inr ⟨h, Or.inl h'⟩)
    · rcases le_total a.2.2 b.2.2 with h'' | h''
      · exact Or.inl (Or.inr ⟨h, Or.inr ⟨h', h''⟩⟩)
      · exact Or.inr (Or.inr ⟨h.symm, Or.inr ⟨h'.symm, h''⟩⟩)
    · exact Or.inr (Or.inr ⟨h.symm, Or.inl h'⟩)
  · exact Or.inr (Or.inl h)

theorem valid_name_variant_iff (nv : NameVariant) :
    valid_name_variant nv = true ↔ (nv.1 ≠ "" ∧ nv.2 ≠ "") := by
  simp [valid_name_variant]

theorem identity_key_eq_some_pair {r : Resource} {k : String × String} :
    identity_key r = some k ↔ r.type? = some k.1 ∧ r.name? = some k.2 := by
  cases k; exact identity_key_eq_some

theorem add_success_key (s : ResourceState) (r : Resource) (k : String × String)
    (hk : identity_key r = some k) (hmem : s.containsKey k = false) :
    s.add r = (⟨s.state ++ [(k, r)], s.create_list ++ [r]⟩, none) := by
  obtain ⟨ht, hn⟩ := identity_key_eq_some_pair.mp hk
  cases k with
  | mk t n => exact add_success s r t n ht hn hmem

instance : IsTotal Resource res_le :=
  ⟨fun a b => sort_key_le_total (sortKeyD a) (sortKeyD b)⟩

instance : IsTrans Resource res_le := ⟨fun _ _ _ => sort_key_le_trans⟩

/-- Helper for C2: a run of `add` calls whose identity keys exist, are
absent from the starting registry and are pairwise distinct succeeds
wholesale, extending the uniqueness map and the creation list in call
order. -/
theorem addAll_success (rs : List Resource) : ∀ (s : ResourceState),
    (∀ r ∈ rs, ∃ k, identity_key r = some k ∧ s.containsKey k = false) →
    rs.Pairwise (fun a b => identity_key a ≠ identity_key b) →
    addAll s rs = some ⟨s.state ++ rs.map (fun r => (keyD r, r)), s.create_list ++ rs⟩ := by
  induction rs with
  | nil => intro s _ _; simp [addAll]
  | cons r rest ih =>
    intro s hfresh hdist
    obtain ⟨k, hk, hmem⟩ := hfresh r (List.mem_cons_self r rest)
    obtain ⟨hhead, htail⟩ := List.pairwise_cons.mp hdist
    rw [addAll, add_success_key s r k hk hmem]
    have hfresh2 : ∀ r' ∈ rest, ∃ k', identity_key r' = some k' ∧
        (ResourceState.mk (s.state ++ [(k, r)]) (s.create_list ++ [r])).containsKey k' = false := by
      intro r' hr'
      obtain ⟨k', hk', hmem'⟩ := hfresh r' (List.mem_cons_of_mem r hr')
      refine ⟨k', hk', ?_⟩
      have hkk' : (k == k') = false := by
        have : k ≠ k' := fun hcon => (hhead r' hr') (by rw [hk, hk', hcon])
        simpa using this
      simp only [ResourceState.containsKey, List.any_append] at hmem' ⊢
      simp [hmem', hkk']
    show addAll ⟨s.state ++ [(k, r)], s.create_list ++ [r]⟩ rest = _
    rw [ih _ hfresh2 htail]
    have hkeyD : keyD r = k := by simp [keyD, hk]
    simp [hkeyD, List.append_assoc]

/-- Helper for C2: evaluating `sorted_list` when no sort key raises. -/
theorem sorted_list_eq (s : ResourceState)
    (h : (s.state.map Prod.snd).all (fun r => (to_sort_key r).isSome) = true) :
    s.sorted_list = some ((s.state.map Prod.snd).insertionSort res_le) := by
  rw [ResourceState.sorted_list]
  simp only [h, if_true]

/-- Helper for C10: the invariant tying the uniqueness map to the creation
list: same resources in the same order, keys in step with the resources,
keys pairwise distinct. -/
def Inv (s : ResourceState) : Prop :=
  s.state.map Prod.snd = s.create_list ∧
  s.state.map Prod.fst = s.create_list.map keyD ∧
  (s.state.map Prod.fst).Nodup

/-- Helper for C10: one `add` call — successful or failing — preserves the
invariant and extends the creation list by a subsequence of `[r]`. -/
theorem add_preserves_Inv (s : ResourceState) (r : Resource) (h : Inv s) :
    Inv (s.add r).1 ∧
      ∃ t, (s.add r).1.create_list = s.create_list ++ t ∧ t.Sublist [r] := by
  obtain ⟨h1, h2, h3⟩ := h
  rw [ResourceState.add.eq_def]
  cases ht : r.type? with
  | none => exact ⟨⟨h1, h2, h3⟩, [], by simp, List.nil_sublist _⟩
  | some t =>
    cases hn : r.name? with
    | none => exact ⟨⟨h1, h2, h3⟩, [], by simp, List.nil_sublist _⟩
    | some n =>
      by_cases hmem : s.containsKey (t, n) = true
      · simp only [hmem, if_true]
        exact ⟨⟨h1, h2, h3⟩, [], by simp, List.nil_sublist _⟩
      · have hmem' : s.containsKey (t, n) = false := by simpa using hmem
        simp only [hmem', Bool.false_eq_true, if_false]
        have hnotin := not_mem_fst_of_not_containsKey s (t, n) hmem'
        refine ⟨⟨?_, ?_, ?_⟩, [r], rfl, List.Sublist.refl _⟩
        · simp [h1]
        · simp [h2, keyD, identity_key, ht, hn]
        · simp only [List.map_append, List.map_cons, List.map_nil]
          rw [List.nodup_append]
          simp [h3, hnotin]

/-- Helper for C10: any session of caught `add` calls preserves the
invariant and grows the creation list by a subsequence of the attempted
resources, in order. -/
theorem foldAdds_Inv (rs : List Resource) : ∀ (s : ResourceState), Inv s →
    Inv (rs.foldl (fun s r => (s.add r).1) s) ∧
    ∃ t, (rs.foldl (fun s r => (s.add r).1) s).create_list = s.create_list ++ t ∧
      t.Sublist rs := by
  induction rs with
  | nil => intro s h; exact ⟨h, [], by simp, List.nil_sublist _⟩
  | cons r rest ih =>
    intro s h
    obtain ⟨h1, t1, ht1, hs1⟩ := add_preserves_Inv s r h
    obtain ⟨h2, t2, ht2, hs2⟩ := ih _ h1
    rw [List.foldl_cons]
    refine ⟨h2, t1 ++ t2, ?_, ?_⟩
    · rw [ht2, ht1, List.append_assoc]
    · simpa using List.Sublist.append hs1 hs2

/-!  ## Claim theorems  -/

/-- Claim C1: for every registry and every resource whose identity key
`(kind, name)` is already present in the registry — nothing constrains the
variants, so the two resources may carry different ones — `add` raises a
`ResourceRedefinedError` whose message names that kind and that name, and
the method hands back the registry with the uniqueness map and the
insertion-ordered creation list exactly as they were. -/
theorem add_redefinition (s : ResourceState) (r : Resource) (t n : String)
    (ht : r.type? = some t) (hn : r.name? = some n)
    (hmem : s.containsKey (t, n) = true) :
    s.add r = (s, some (PyError.resourceRedefined
      (t ++ " resource " ++ n ++ r.variantStr ++ " defined in multiple places"))) := by
  rw [ResourceState.add.eq_def, ht, hn]
  simp [hmem, redefinedMessage]

/-- Witness for C1: two sources named `s` with different variants; the second
`add` fails with the redefinition message and the registry is the one the
first `add` produced. -/
theorem add_redefinition_witness :
    ((ResourceState.empty.add (.source ⟨"s", "v1", .sqlTransformation "q", "o", "p", "d"⟩)).1.add
        (.source ⟨"s", "v2", .sqlTransformation "q", "o", "p", "d"⟩)) =
      ((ResourceState.empty.add (.source ⟨"s", "v1", .sqlTransformation "q", "o", "p", "d"⟩)).1,
        some (PyError.resourceRedefined
          ("source" ++ " resource " ++ "s" ++
            (Resource.source ⟨"s", "v2", .sqlTransformation "q", "o", "p", "d"⟩).variantStr ++
            " defined in multiple places"))) :=
  add_redefinition _ _ "source" "s" rfl rfl (by decide)

/-- Claim C3: `TrainingSet` construction succeeds exactly when the label has
a non-empty name and variant, the feature list is non-empty, and every
feature has a non-empty name and variant; in every other case
`__post_init__` raises before the value exists — no registry is
involved. -/
theorem trainingSet_validation (name variant owner : String) (label : NameVariant)
    (features : List NameVariant) (description : String) :
    (∃ ts, TrainingSet.make name variant owner label features description = .ok ts) ↔
      ((label.1 ≠ "" ∧ label.2 ≠ "") ∧ features ≠ [] ∧
        ∀ f ∈ features, f.1 ≠ "" ∧ f.2 ≠ "") := by
  rw [TrainingSet.make]
  by_cases h1 : valid_name_variant label = true
  · by_cases h2 : features.length = 0
    · rw [if_neg (by simp [h1]), if_pos h2]
      constructor
      · rintro ⟨ts, hts⟩; cases hts
      · rintro ⟨-, hne, -⟩; exact absurd (List.length_eq_zero.mp h2) hne
    · rw [if_neg (by simp [h1]), if_neg h2]
      cases hf : features.find? (fun f => !valid_name_variant f) with
      | some x =>
        simp only [hf]
        constructor
        · rintro ⟨ts, hts⟩; cases hts
        · rintro ⟨-, -, hall⟩
          have hx : valid_name_variant x = false := by
            simpa using List.find?_some hf
          have hxm := List.mem_of_find?_eq_some hf
          have := (valid_name_variant_iff x).mpr (hall x hxm)
          rw [hx] at this; cases this
      | none =>
        simp only [hf]
        constructor
        · rintro -
          refine ⟨(valid_name_variant_iff label).mp h1,
            fun hcon => h2 (by rw [hcon]; rfl), fun f hfm => ?_⟩
          have := List.find?_eq_none.mp hf f hfm
          exact (valid_name_variant_iff f).mp (by simpa using this)
        · rintro -
          exact ⟨_, rfl⟩
  · have h1' : valid_name_variant label = false := by simpa using h1
    rw [if_pos (by simp [h1'])]
    constructor
    · rintro ⟨ts, hts⟩; cases hts
    · rintro ⟨hl, -, -⟩
      exact absurd ((valid_name_variant_iff label).mpr hl) (by simp [h1'])

/-- Claim C2: for every sequence of `add` calls whose resources have
pairwise-distinct `(kind, name)` identity keys, every `add` succeeds, and
`sorted_list()` then returns exactly those resources — a permutation of
them — ordered by the key `(priority of kind, name, variant-or-empty)`,
where the priorities are User=0, Provider=1, Source=2, Entity=3,
Feature=4, Label=5, TrainingSet=6 (the `resource_order` table inside
`to_sort_key`) and ties break lexicographically by name then variant (the
relation `res_le` on the keys of `to_sort_key`). -/
theorem distinct_adds_succeed_and_sort (rs : List Resource)
    (hkeys : ∀ r ∈ rs, (identity_key r).isSome)
    (hdist : rs.Pairwise fun a b => identity_key a ≠ identity_key b) :
    ∃ st l, addAll ResourceState.empty rs = some st ∧
      st.sorted_list = some l ∧ l.Perm rs ∧ l.Pairwise res_le := by
  have hfresh : ∀ r ∈ rs, ∃ k, identity_key r = some k ∧
      ResourceState.empty.containsKey k = false := fun r hr => by
    obtain ⟨k, hk⟩ := Option.isSome_iff_exists.mp (hkeys r hr)
    exact ⟨k, hk, rfl⟩
  have hadd := addAll_success rs ResourceState.empty hfresh hdist
  refine ⟨_, rs.insertionSort res_le, hadd, ?_, List.perm_insertionSort res_le rs,
    List.sorted_insertionSort res_le rs⟩
  have hvals : (ResourceState.mk (ResourceState.empty.state ++ rs.map (fun r => (keyD r, r)))
      (ResourceState.empty.create_list ++ rs)).state.map Prod.snd = rs := by
    simp only [ResourceState.empty, List.nil_append, List.map_map]
    have hcomp : (Prod.snd ∘ fun r : Resource => (keyD r, r)) = id := rfl
    rw [hcomp, List.map_id]
  have hall : ((ResourceState.mk (ResourceState.empty.state ++ rs.map (fun r => (keyD r, r)))
      (ResourceState.empty.create_list ++ rs)).state.map Prod.snd).all
      (fun r => (to_sort_key r).isSome) = true := by
    rw [hvals, List.all_eq_true]
    intro r hr
    rw [to_sort_key_isSome]
    exact hkeys r hr
  rw [sorted_list_eq _ hall, hvals]

/-- Witness for C2: a user and an entity with distinct identity keys; both
adds succeed and `sorted_list` returns them sorted. -/
theorem distinct_adds_succeed_and_sort_witness :
    ∃ st l, addAll ResourceState.empty
        [Resource.user ⟨"a"⟩, Resource.entity ⟨"b", "d"⟩] = some st ∧
      st.sorted_list = some l ∧
      l.Perm [Resource.user ⟨"a"⟩, Resource.entity ⟨"b", "d"⟩] ∧
      l.Pairwise res_le :=
  distinct_adds_succeed_and_sort _ (by decide)
    ((List.pairwise_cons.mpr ⟨by decide, by simp⟩))

/-- Claim C10: after any sequence of `add` calls — successful or failing,
the caller catching each error and continuing — the creation list holds
exactly the resources stored in the uniqueness map, in the same insertion
order (so: same elements, no duplicates), the `(kind, name)` keys along it
are pairwise distinct, and it is the subsequence of the attempted call
sequence formed by the successful calls. -/
theorem registry_invariant (rs : List Resource) :
    (runAdds rs).state.map Prod.snd = (runAdds rs).create_list ∧
    (runAdds rs).state.map Prod.fst = (runAdds rs).create_list.map keyD ∧
    ((runAdds rs).create_list.map keyD).Nodup ∧
    (runAdds rs).create_list.Sublist rs := by
  rw [runAdds]
  obtain ⟨⟨h1, h2, h3⟩, t, ht, hs⟩ :=
    foldAdds_Inv rs ResourceState.empty ⟨rfl, rfl, List.nodup_nil⟩
  refine ⟨h1, h2, by rw [← h2]; exact h3, ?_⟩
  have ht' : (rs.foldl (fun s r => (s.add r).1) ResourceState.empty).create_list = t := by
    simpa [ResourceState.empty] using ht
  rw [ht']
  exact hs

/-- Claim C4 evaluated at its failing input: a registry whose single
registered resource is `Entity("user_id", "desc")`.  The `Entity` class has
no `_create` method, so `create_all` issues zero remote calls — not the one
call per registered resource the claim requires — and the `AttributeError`
escapes to the caller. -/
theorem create_all_entity_issues_no_call :
    ((ResourceState.empty.add (.entity ⟨"user_id", "desc"⟩)).1.create_all (fun _ => .ok)) =
      ([], some PyError.attributeError) := by decide

/-- Claim C6 evaluated at its failing input: five users are registered and
the remote call for the third fails with an `_InactiveRpcError` whose
status `UNAVAILABLE` is not "already exists".  The `except` clause of
`create_all` catches every `_InactiveRpcError` whatever its status, so
nothing propagates: all five calls are attempted — the claim requires an
abort after the third attempt with the fourth and fifth never tried. -/
theorem create_all_swallows_non_already_exists :
    (runAdds [.user ⟨"u1"⟩, .user ⟨"u2"⟩, .user ⟨"u3"⟩,
        .user ⟨"u4"⟩, .user ⟨"u5"⟩]).create_all
        (fun c => if c = .CreateUser ⟨"u3"⟩ then .inactiveRpcError "UNAVAILABLE" else .ok) =
      ([.CreateUser ⟨"u1"⟩, .CreateUser ⟨"u2"⟩, .CreateUser ⟨"u3"⟩,
        .CreateUser ⟨"u4"⟩, .CreateUser ⟨"u5"⟩], none) ∧
    RpcOutcome.inactiveRpcError "UNAVAILABLE" ≠
      RpcOutcome.inactiveRpcError "ALREADY_EXISTS" := by decide

/-- Claim C7 evaluated: `User("alice")`, then `Provider("pg")` with a
`PostgresConfig`, then `Entity("user_id", "desc")` are registered in that
order.  `sorted_list` does return the three resources in that order, but
`create_all` issues only `CreateUser`: `Provider._create` calls
`config.type()` and `config.serialize()`, which `PostgresConfig` does not
define, so an `AttributeError` escapes before `CreateProvider` is built,
and the entity-create call the claim expects does not exist either
(`Entity` has no `_create`). -/
theorem scenario_sorted_list_and_create_all :
    (runAdds [.user ⟨"alice"⟩,
        .provider ⟨"pg", "", .postgres ⟨"h", 5432, "d", "u", "p"⟩, "", ""⟩,
        .entity ⟨"user_id", "desc"⟩]).sorted_list =
      some [.user ⟨"alice"⟩,
        .provider ⟨"pg", "", .postgres ⟨"h", 5432, "d", "u", "p"⟩, "", ""⟩,
        .entity ⟨"user_id", "desc"⟩] ∧
    (runAdds [.user ⟨"alice"⟩,
        .provider ⟨"pg", "", .postgres ⟨"h", 5432, "d", "u", "p"⟩, "", ""⟩,
        .entity ⟨"user_id", "desc"⟩]).create_all (fun _ => .ok) =
      ([.CreateUser ⟨"alice"⟩], some PyError.attributeError) := by decide

/-- Claim C8: `SnowflakeConfig.serialize()` is a flat JSON key-value record
of the connection parameters — username, password, organization, account,
database, in the dict order of the source — `Provider._create` embeds that
very payload as the `serialized_config` field of the `pb.Provider` wire
message, and the Redis and Postgres configs provide no such payload (no
`serialize` method exists on them). -/
theorem snowflake_serialize_wire_payload (c : SnowflakeConfig)
    (name function description team : String)
    (rc : RedisConfig) (pc : PostgresConfig) :
    c.serialize =
      "\x7b" ++ ((jsonString "Username" ++ ": " ++ jsonString c.username) ++ ", " ++
        ((jsonString "Password" ++ ": " ++ jsonString c.password) ++ ", " ++
          ((jsonString "Organization" ++ ": " ++ jsonString c.organization) ++ ", " ++
            ((jsonString "Account" ++ ": " ++ jsonString c.account) ++ ", " ++
              (jsonString "Database" ++ ": " ++ jsonString c.database))))) ++ "\x7d" ∧
    (Resource.provider ⟨name, function, .snowflake c, description, team⟩).create? =
      some (.CreateProvider
        ⟨name, description, "SNOWFLAKE_OFFLINE", "Snowflake", team, c.serialize⟩) ∧
    (Config.redis rc).serialize = none ∧
    (Config.postgres pc).serialize = none :=
  ⟨rfl, rfl, rfl, rfl⟩

/-- Helper for C5: over any list of remaining resources, when every
resource's `_create` issues a call that the stub fails with an
already-exists `_InactiveRpcError`, the loop swallows every failure and
issues exactly one call per resource, in order. -/
theorem createLoop_already_exists (stub : Stub) (rs : List Resource)
    (h : ∀ r ∈ rs, r.create?.map stub =
      some (RpcOutcome.inactiveRpcError "ALREADY_EXISTS")) :
    (createLoop stub rs).2 = none ∧
      (createLoop stub rs).1.map some = rs.map Resource.create? := by
  induction rs with
  | nil => exact ⟨rfl, rfl⟩
  | cons r rest ih =>
    obtain ⟨c, hc, hs⟩ := Option.map_eq_some'.mp (h r (List.mem_cons_self r rest))
    obtain ⟨ih1, ih2⟩ := ih fun r' hr' => h r' (List.mem_cons_of_mem r hr')
    simp [createLoop, hc, hs, ih1, ih2]

/-- Claim C5: when every registered resource's remote create call fails with
an already-exists `_InactiveRpcError`, `create_all` completes without
raising anything at the caller, having attempted exactly one call per
registered resource, in insertion order. -/
theorem create_all_tolerates_already_exists (s : ResourceState) (stub : Stub)
    (h : ∀ r ∈ s.create_list, r.create?.map stub =
      some (RpcOutcome.inactiveRpcError "ALREADY_EXISTS")) :
    (s.create_all stub).2 = none ∧
      (s.create_all stub).1.map some = s.create_list.map Resource.create? :=
  createLoop_already_exists stub s.create_list h

/-- Witness for C5: two registered users and a stub that fails every call
with an already-exists `_InactiveRpcError`. -/
theorem create_all_tolerates_already_exists_witness :
    ((runAdds [.user ⟨"a"⟩, .user ⟨"b"⟩]).create_all
        (fun _ => .inactiveRpcError "ALREADY_EXISTS")).2 = none ∧
      ((runAdds [.user ⟨"a"⟩, .user ⟨"b"⟩]).create_all
        (fun _ => .inactiveRpcError "ALREADY_EXISTS")).1.map some =
        (runAdds [.user ⟨"a"⟩, .user ⟨"b"⟩]).create_list.map Resource.create? :=
  create_all_tolerates_already_exists _ _ (by decide)

/-- Claim C9: `sorted_list` is a pure read.  The method body writes nothing
to `self`, so its state-transformer embedding returns the receiver as it
was: uniqueness map and creation list are identical before and after the
call, and a subsequent `create_all` issues exactly the calls it would have
issued had `sorted_list` never run. -/
theorem sorted_list_no_side_effects (s : ResourceState) (stub : Stub) :
    s.sorted_list_run.2.state = s.state ∧
    s.sorted_list_run.2.create_list = s.create_list ∧
    s.sorted_list_run.2.create_all stub = s.create_all stub :=
  ⟨rfl, rfl, rfl⟩

end FF
